import Mathlib

/-!
# Ferripaste (`cmd/ferri/main.go`): upload, verification and outcome reporting

A shallow embedding of the upload pipeline of `cmd/ferri/main.go`.

* Go strings are Lean `String`s; the string helpers work on the list of characters.
* A Go `error` value is a `GoError`; a possibly-nil `error` is an `Option GoError`.
* File system and network are oracles collected in an `Env`: what one call of
  `uploadFile`, `uploadURL` or one verification probe observes of the outside world.
  Every request handed to `client.Do` is recorded in a trace.
* The goroutines of `uploadFiles` commit under the mutex one at a time; the order in
  which they do so is an explicit parameter (`order`, a permutation of the task indices).
* A run-time panic (index out of range) is the outcome `none`.
-/

namespace Ferri

/-! ## Constants (lines 30-41) -/

def authzHeader : String := "Authorization"
def expireHeader : String := "Expire"
def fieldFile : String := "file"
def fieldOneshot : String := "oneshot"
def fieldOneshotURL : String := "oneshot_url"
def fieldRemote : String := "remote"
def fieldURL : String := "url"
/-- The value of `http.StatusOK`. -/
def statusOK : Int := 200

/-! ## Data model -/

/-- Go `error` values: a message (`errors.New`), an error wrapped under a message
(`fmt.Errorf` with `%w`), or the result of `errors.Join`. -/
inductive GoError where
  | text (msg : String)
  | wrap (msg : String) (err : GoError)
  | join (errs : List GoError)

/-- The function `errors.Join`: `nil` when there is no error to join. -/
def errorsJoin (errs : List GoError) : Option GoError :=
  if errs.isEmpty then none else some (.join errs)

/-- The call `fmt.Errorf(msg + ": %w", err)`. -/
def wrapError (msg : String) (err : GoError) : GoError :=
  .wrap msg err

/-- Upload represents a completed file upload. -/
structure Upload where
  Name : String
  Status : Int
  URL : String
deriving DecidableEq, Repr

/-- The zero value `Upload{}`. -/
def Upload.zero : Upload := { Name := "", Status := 0, URL := "" }

/-- Config holds settings loaded from the config file. -/
structure Config where
  URL : String
  Token : String
  TokenCommand : String
deriving DecidableEq, Repr

/-- Args holds parsed command-line arguments. -/
structure Args where
  ConfigPath : String
  ExpireTime : String
  Filename : String
  Files : List String
  NoID : Bool
  OneShot : Bool
  RemoteURL : String
  StripExif : Bool
  Suffix : String
  URLToShorten : String
  Verbose : Int
deriving DecidableEq, Repr

/-! ## Standard-library string functions used by the program -/

/-- The function `unicode.IsSpace`. -/
def isSpace (c : Char) : Bool :=
  c = '\t' || c = '\n' || c.toNat = 0x0B || c.toNat = 0x0C || c = '\r' || c = ' '
    || c.toNat = 0x85 || c.toNat = 0xA0 || c.toNat = 0x1680
    || (0x2000 ≤ c.toNat && c.toNat ≤ 0x200A)
    || c.toNat = 0x2028 || c.toNat = 0x2029 || c.toNat = 0x202F || c.toNat = 0x205F
    || c.toNat = 0x3000

/-- The function `strings.TrimSpace`. -/
def trimSpace (s : String) : String :=
  String.mk ((s.data.dropWhile isSpace).reverse.dropWhile isSpace).reverse

/-- Drops the trailing slashes of a path. -/
def stripTrailingSlashes (cs : List Char) : List Char :=
  (cs.reverse.dropWhile (· = '/')).reverse

/-- The last element of a path without trailing slash: what follows the last slash. -/
def lastElement (cs : List Char) : List Char :=
  (cs.reverse.takeWhile (· ≠ '/')).reverse

/-- The function `filepath.Base` (Unix). -/
def filepathBase (path : String) : String :=
  if path = "" then "."
  else
    let p := lastElement (stripTrailingSlashes path.data)
    if p = [] then "/" else String.mk p

/-- The class `[\s%]` of the regular expression in `run` (`\s` is `[\t\n\f\r ]` in Go). -/
def matchesSpaceOrPercent (c : Char) : Bool :=
  c = '\t' || c = '\n' || c.toNat = 0x0C || c = '\r' || c = ' ' || c = '%'

/-- The call `regexp.MustCompile("[\\s%]").ReplaceAllString(s, "-")`. -/
def replaceSpaceOrPercent (s : String) : String :=
  String.mk (s.data.map fun c => if matchesSpaceOrPercent c then '-' else c)

/-- The function `strings.Index(s, ".")`: the position of the first period, if any. -/
def indexDot : List Char → Option Nat
  | [] => none
  | c :: cs => if c = '.' then some 0 else (indexDot cs).map (· + 1)

/-- The function `splitSuffix` (lines 536-547). -/
def splitSuffix (filename : String) : String × String :=
  match indexDot filename.data with
  | none => (filename, "")
  | some dotIndex =>
    let stem := String.mk (filename.data.take dotIndex)
    let ext := String.mk (filename.data.drop dotIndex) -- Includes the leading period.
    (stem, ext)

/-- The function `strconv.FormatInt(n, 10)`. -/
def formatInt (n : Int) : String :=
  match n with
  | .ofNat k => String.mk (Nat.toDigits 10 k)
  | .negSucc k => String.mk ('-' :: Nat.toDigits 10 (k + 1))

/-! ## The outside world -/

/-- An open file: the bytes it holds and, when reading it fails, after how many bytes
and with which error (`os.Open` succeeds on a directory, whose first read fails). -/
structure File where
  content : String
  fault : Option (Nat × GoError)

/-- The call `io.Copy(part, file)`: the bytes written to the part, and the error. -/
def ioCopy (file : File) : String × Option GoError :=
  match file.fault with
  | none => (file.content, none)
  | some (n, err) => (String.mk (file.content.data.take n), some err)

/-- One part of a multipart body. -/
structure Part where
  fieldName : String
  fileName : Option String
  content : String
deriving DecidableEq, Repr

/-- The bytes a closed `multipart.Writer` has written to its buffer, by structure. -/
structure Multipart where
  boundary : String
  parts : List Part
deriving DecidableEq, Repr

/-- The method `(*multipart.Writer).FormDataContentType`. -/
def Multipart.formDataContentType (m : Multipart) : String :=
  "multipart/form-data; boundary=" ++ m.boundary

/-- An `http.Request`. -/
structure Request where
  method : String
  url : String
  header : List (String × String)
  body : Option Multipart
deriving DecidableEq, Repr

/-- The method `req.Header.Set(k, v)` (the keys used are in canonical form already). -/
def Request.setHeader (req : Request) (k v : String) : Request :=
  { req with header := req.header.filter (fun kv => kv.1 ≠ k) ++ [(k, v)] }

/-- An `http.Response`: its status code and what `io.ReadAll(resp.Body)` returns. -/
structure Response where
  StatusCode : Int
  Body : Except GoError String

/-- What one upload call or one verification probe observes of the outside world. -/
structure Env where
  /-- The call `os.Open(path)`. -/
  osOpen : String → Except GoError File
  /-- The random boundary that `multipart.NewWriter` draws. -/
  boundary : String
  /-- The error of `http.NewRequest(method, url, body)`, `nil` for a well-formed URL. -/
  newRequestErr : String → String → Option GoError
  /-- The call `client.Do(req)`, time-outs included. -/
  clientDo : Request → Except GoError Response

/-- The function `http.NewRequest`. -/
def newRequest (env : Env) (method url : String) (body : Option Multipart) :
    Except GoError Request :=
  match env.newRequestErr method url with
  | some err => .error err
  | none => .ok { method := method, url := url, header := [], body := body }

/-! ## Request builder (lines 565-581) -/

/-- The escaping of `mime/multipart` on the characters of a parameter value, as the
receiver reads the value back: CR and LF are percent-encoded; the backslash escapes of
the quote and of the backslash belong to the quoted form and are undone by the reader. -/
def escapeChars : List Char → List Char
  | [] => []
  | c :: cs =>
    if c = '\r' then '%' :: '0' :: 'D' :: escapeChars cs
    else if c = '\n' then '%' :: '0' :: 'A' :: escapeChars cs
    else c :: escapeChars cs

/-- The function `escapeQuotes` of `mime/multipart`, applied by `CreateFormFile` and
`CreateFormField` to the field name and the file name. -/
def escapeQuotes (s : String) : String :=
  String.mk (escapeChars s.data)

/-- The function `newMultipartWriter`: the buffer's content once the writer is closed.
The errors of `CreateFormFile` and of `io.Copy` are dropped, as in the source. -/
def newMultipartWriter (boundary fieldName filename : String) (file : File) : Multipart :=
  let part : Part :=
    { fieldName := escapeQuotes fieldName, fileName := some (escapeQuotes filename),
      content := "" }
  let part := { part with content := part.content ++ (ioCopy file).1 }
  { boundary := boundary, parts := [part] }

/-- The function `newMultipartWriterForText`. -/
def newMultipartWriterForText (boundary fieldName value : String) : Multipart :=
  let part : Part := { fieldName := escapeQuotes fieldName, fileName := none, content := "" }
  let part := { part with content := part.content ++ value }
  { boundary := boundary, parts := [part] }

/-! ## Uploader (lines 361-446) -/

/-- The outcome of a call: the requests it handed to `client.Do`, and what it returned. -/
structure Call (α : Type) where
  sent : List Request
  ret : Except GoError α

/-- The function `uploadFile` (the debug log of the request is not part of the model). -/
def uploadFile (env : Env) (baseURL : String) (headers : List (String × String))
    (field file dest : String) (_verbose : Int) : Call Upload :=
  match env.osOpen file with
  | .error err => ⟨[], .error (wrapError ("failed to open file " ++ file) err)⟩
  | .ok f =>
    let buf := newMultipartWriter env.boundary field dest f
    match newRequest env "POST" baseURL (some buf) with
    | .error err => ⟨[], .error (wrapError "failed to create request" err)⟩
    | .ok req =>
      let req := headers.foldl (fun r kv => r.setHeader kv.1 kv.2) req
      let req := req.setHeader "Content-Type" buf.formDataContentType
      match env.clientDo req with
      | .error err => ⟨[req], .error (wrapError "request failed" err)⟩
      | .ok resp =>
        match resp.Body with
        | .error err => ⟨[req], .error (wrapError "failed to read response" err)⟩
        | .ok body =>
          ⟨[req], .ok { Name := filepathBase file, Status := resp.StatusCode,
                        URL := trimSpace body }⟩

/-- The function `uploadURL`. -/
def uploadURL (env : Env) (baseURL : String) (headers : List (String × String))
    (field url : String) (_verbose : Int) : Call (List Upload) :=
  let requestBody := newMultipartWriterForText env.boundary field url
  match newRequest env "POST" baseURL (some requestBody) with
  | .error err => ⟨[], .error (wrapError "failed to create request" err)⟩
  | .ok req =>
    let req := headers.foldl (fun r kv => r.setHeader kv.1 kv.2) req
    let req := req.setHeader "Content-Type" requestBody.formDataContentType
    match env.clientDo req with
    | .error err => ⟨[req], .error (wrapError "request failed" err)⟩
    | .ok resp =>
      match resp.Body with
      | .error err => ⟨[req], .error (wrapError "failed to read response" err)⟩
      | .ok body =>
        ⟨[req], .ok [{ Name := url, Status := resp.StatusCode, URL := trimSpace body }]⟩

/-- The function `uploadRemoteURL`. -/
def uploadRemoteURL (env : Env) (baseURL : String) (headers : List (String × String))
    (field url : String) (verbose : Int) : Call (List Upload) :=
  uploadURL env baseURL headers field url verbose

/-! ## Parallel dispatcher (lines 323-359) -/

/-- The variables the goroutines of `uploadFiles` share under the mutex. -/
structure Shared where
  uploads : List Upload
  errs : List GoError

/-- The critical section of goroutine `i` (lines 341-348). -/
def commit (s : Shared) (i : Nat) (r : Except GoError Upload) : Shared :=
  match r with
  | .ok upload => { s with uploads := s.uploads.set i upload }
  | .error err => { s with errs := s.errs ++ [err] }

/-- The call of `uploadFile` in goroutine `i` (line 339), on `files[i]` and `dests[i]`;
`none` when there is no goroutine `i`. -/
def taskCall (envs : Nat → Env) (baseURL : String) (headers : List (String × String))
    (field : String) (files dests : List String) (verbose : Int) (i : Nat) :
    Option (Call Upload) :=
  match files[i]?, dests[i]? with
  | some file, some dest => some (uploadFile (envs i) baseURL headers field file dest verbose)
  | _, _ => none

/-- What the call of `uploadFile` in goroutine `i` returns (line 339); `none` when
there is no goroutine `i`. -/
def taskResult (envs : Nat → Env) (baseURL : String) (headers : List (String × String))
    (field : String) (files dests : List String) (verbose : Int) (i : Nat) :
    Option (Except GoError Upload) :=
  (taskCall envs baseURL headers field files dests verbose i).map fun c => c.ret

/-- Goroutine `i` enters the critical section with the result of its upload. -/
def dispatchStep (task : Nat → Option (Except GoError Upload)) (s : Shared) (i : Nat) :
    Shared :=
  match task i with
  | some r => commit s i r
  | none => s

/-- The function `uploadFiles`. Goroutine `i` observes `envs i`; `order` lists the
goroutines in the order in which they enter the critical section. The result is `none`
when `dests[i]` is out of range (a panic), else the pair the function returns. -/
def uploadFiles (envs : Nat → Env) (order : List Nat) (baseURL : String)
    (headers : List (String × String)) (field : String) (files dests : List String)
    (verbose : Int) : Option (Option (List Upload) × Option GoError) :=
  if dests.length < files.length then none
  else
    let uploads := List.replicate files.length Upload.zero
    let s : Shared := order.foldl
      (dispatchStep (taskResult envs baseURL headers field files dests verbose))
      { uploads := uploads, errs := [] }
    if s.errs.length > 0 then some (none, errorsJoin s.errs)
    else some (some s.uploads, none)

/-- The requests that goroutine `i` of `uploadFiles` hands to `client.Do`. -/
def taskSent (envs : Nat → Env) (baseURL : String) (headers : List (String × String))
    (field : String) (files dests : List String) (verbose : Int) (i : Nat) : List Request :=
  match taskCall envs baseURL headers field files dests verbose i with
  | some c => c.sent
  | none => []

/-- The requests that the goroutines of `uploadFiles` hand to `client.Do`, listed
goroutine by goroutine (the order in which they reach the network is not fixed). -/
def uploadFilesSent (envs : Nat → Env) (baseURL : String) (headers : List (String × String))
    (field : String) (files dests : List String) (verbose : Int) : List Request :=
  (List.range files.length).flatMap
    (taskSent envs baseURL headers field files dests verbose)

/-- The function `uploadFiles` with the requests its goroutines hand to `client.Do`. -/
def uploadFilesTraced (envs : Nat → Env) (order : List Nat) (baseURL : String)
    (headers : List (String × String)) (field : String) (files dests : List String)
    (verbose : Int) : Option (Option (List Upload) × Option GoError) × List Request :=
  (uploadFiles envs order baseURL headers field files dests verbose,
    uploadFilesSent envs baseURL headers field files dests verbose)

/-! ## Verifier (lines 448-491) -/

/-- A line of the error log, with the error attached to it if any. -/
structure LogEntry where
  msg : String
  err : Option GoError

/-- The state of the loop of `verifyUploads`, with the requests handed to `client.Do`. -/
structure Verify where
  result : Bool
  probes : List Request
  log : List LogEntry

/-- One iteration of the loop of `verifyUploads` (lines 456-487). -/
def verifyStep (env : Env) (s : Verify) (upload : Upload) : Verify :=
  if upload.URL = "" then
    { s with
      result := false
      log := s.log ++ [⟨upload.Name ++ " failed to upload with status "
        ++ formatInt upload.Status, none⟩] }
  else
    -- Verify URL is accessible without downloading the full content.
    match newRequest env "GET" upload.URL none with
    | .error err =>
      { s with
        result := false
        log := s.log ++ [⟨"Failed to create verification request for " ++ upload.URL,
          some err⟩] }
    | .ok req =>
      match env.clientDo req with
      | .error err =>
        { result := false
          probes := s.probes ++ [req]
          log := s.log ++ [⟨"Failed to verify URL " ++ upload.URL, some err⟩] }
      | .ok resp =>
        if resp.StatusCode ≠ statusOK then
          { result := false
            probes := s.probes ++ [req]
            log := s.log ++ [⟨upload.URL ++ " failed URL verification with status "
              ++ formatInt resp.StatusCode, none⟩] }
        else
          { s with probes := s.probes ++ [req] }

/-- The loop of `verifyUploads` from item `k` on; iteration `k` observes `envs k`. -/
def verifyLoop (envs : Nat → Env) : Nat → List Upload → Verify → Verify
  | _, [], s => s
  | k, upload :: rest, s => verifyLoop envs (k + 1) rest (verifyStep (envs k) s upload)

/-- The function `verifyUploads`; its boolean is the field `result`. -/
def verifyUploads (envs : Nat → Env) (uploads : List Upload) : Verify :=
  verifyLoop envs 0 uploads { result := true, probes := [], log := [] }

/-! ## Argument checks (lines 135-165) -/

/-- The checks of `parseArgs` on the values the command line was parsed into;
`log.Fatal` ends the process, here an error with the message logged. -/
def parseArgs (args : Args) : Except String Args :=
  -- Ensure exactly one upload source is specified.
  let mutuallyExclusive : Nat := 0
  let mutuallyExclusive := if args.Files.length > 0 then mutuallyExclusive + 1
    else mutuallyExclusive
  let mutuallyExclusive := if args.RemoteURL ≠ "" then mutuallyExclusive + 1
    else mutuallyExclusive
  let mutuallyExclusive := if args.URLToShorten ≠ "" then mutuallyExclusive + 1
    else mutuallyExclusive
  if mutuallyExclusive ≠ 1 then
    .error "One or more file arguments, -r, or -u required"
  else if args.Filename ≠ "" ∧ args.NoID = true then
    .error "Argument -I: not allowed with argument -f"
  else if args.Filename ≠ "" ∧ args.Files.length > 1 then
    .error "Argument -f: not allowed with more than one file"
  else if args.OneShot = true ∧ args.RemoteURL ≠ "" then
    .error "Argument -1: not allowed with argument -r"
  else
    .ok args

/-! ## The function `run` (lines 211-321) -/

/-- What `run` observes of the outside world. -/
structure World where
  /-- The value of `time.Now().Unix()`. -/
  now : Int
  /-- The call `os.MkdirTemp`. -/
  mkdirTemp : Except GoError String
  /-- The `i`-th call of `copyWithoutExif(src, destDir)`. -/
  copyWithoutExif : Nat → String → String → Except GoError String
  /-- What `uploadURL` observes. -/
  urlEnv : Env
  /-- What goroutine `i` of `uploadFiles` observes. -/
  fileEnvs : Nat → Env
  /-- The order in which the goroutines of `uploadFiles` enter the critical section. -/
  order : List Nat
  /-- What iteration `i` of `verifyUploads` observes. -/
  probeEnvs : Nat → Env

/-- The destination name of one file (the body of the loop, lines 222-233). -/
def destName (args : Args) (uploadID file : String) : String :=
  let filename := filepathBase file
  let (stem, ext) := splitSuffix filename
  -- Sanitize filename by replacing spaces and % with dashes.
  let dest := replaceSpaceOrPercent stem
  let dest := if !args.NoID then dest ++ "." ++ uploadID else dest
  dest ++ ext ++ args.Suffix

/-- The destination names `dests` that `run` builds (lines 217-237). -/
def runDests (args : Args) (uploadID : String) : List String :=
  if args.Files.length > 0 then
    if args.Filename ≠ "" then [args.Filename]
    else args.Files.foldl (fun dests file => dests ++ [destName args uploadID file]) []
  else []

/-- The header map of `run` (lines 239-245). -/
def runHeaders (args : Args) (conf : Config) : List (String × String) :=
  let headers := [(authzHeader, conf.Token)]
  if args.ExpireTime ≠ "" then headers ++ [(expireHeader, args.ExpireTime)] else headers

/-- The loop that strips Exif data from a copy of each file (lines 280-286). -/
def stripAll (w : World) (tempDir : String) : Nat → List String → Except GoError (List String)
  | _, [] => .ok []
  | i, file :: rest =>
    match w.copyWithoutExif i file tempDir with
    | .error err => .error (wrapError "failed to strip Exif data" err)
    | .ok processedFile =>
      match stripAll w tempDir (i + 1) rest with
      | .error err => .error err
      | .ok processedFiles => .ok (processedFile :: processedFiles)

/-- How the upload step of `run` ends: `run` returns before uploading, or the upload
function returns its pair. -/
inductive UploadStep where
  | early (err : GoError)
  | done (uploads : Option (List Upload)) (err : Option GoError)

/-- The pair `([]Upload, error)` that `uploadURL` returns. -/
def UploadStep.ofCall (c : Call (List Upload)) : UploadStep :=
  match c.ret with
  | .error err => .done none (some err)
  | .ok uploads => .done (some uploads) none

/-- What the upload step of `run` did: the field name chosen, how the step ends
(`none` for a panic in `uploadFiles`) and the upload requests handed to `client.Do`. -/
structure Uploaded where
  field : String
  step : Option UploadStep
  sent : List Request

/-- The upload step of `run` (lines 247-290). -/
def runUpload (args : Args) (conf : Config) (w : World) (dests : List String)
    (headers : List (String × String)) : Uploaded :=
  if args.RemoteURL ≠ "" then
    let field := fieldRemote
    let c := uploadRemoteURL w.urlEnv conf.URL headers field args.RemoteURL args.Verbose
    { field := field, step := some (.ofCall c), sent := c.sent }
  else if args.URLToShorten ≠ "" then
    let field := if args.OneShot then fieldOneshotURL else fieldURL
    let c := uploadURL w.urlEnv conf.URL headers field args.URLToShorten args.Verbose
    { field := field, step := some (.ofCall c), sent := c.sent }
  else
    let field := if args.OneShot then fieldOneshot else fieldFile
    -- When requested, create copies of files with Exif data removed.
    let processed : Except GoError (List String) :=
      if args.StripExif then
        match w.mkdirTemp with
        | .error err => .error (wrapError "failed to create temp directory" err)
        | .ok tempDir => stripAll w tempDir 0 args.Files
      else .ok args.Files
    match processed with
    | .error err => { field := field, step := some (.early err), sent := [] }
    | .ok processedFiles =>
      let r := uploadFilesTraced w.fileEnvs w.order conf.URL headers field processedFiles dests
        args.Verbose
      { field := field, step := r.1.map fun p => .done p.1 p.2, sent := r.2 }

/-- The upload step of `run` on the destination names and headers that `run` builds:
the field name chosen and how the step ends. -/
def uploadStep (args : Args) (conf : Config) (w : World) : String × Option UploadStep :=
  let up := runUpload args conf w (runDests args (formatInt w.now)) (runHeaders args conf)
  (up.field, up.step)

/-- What a call of `run` did and returned. -/
structure RunResult where
  /-- The destination names built. -/
  dests : List String
  /-- The multipart field name chosen. -/
  field : String
  /-- The upload requests handed to `client.Do`. -/
  sent : List Request
  /-- The lines printed on standard output. -/
  stdout : List String
  /-- How many times `verifyUploads` was called. -/
  verifyCalls : Nat
  /-- The verification requests handed to `client.Do`. -/
  probes : List Request
  /-- The error `run` returns, `nil` for success. -/
  err : Option GoError

/-- The loop that prints the URLs (lines 296-300). -/
def printURLs (uploads : List Upload) : List String :=
  uploads.foldl (fun out upload => if upload.URL ≠ "" then out ++ [upload.URL] else out) []

/-- The loop over the statuses (lines 302-307), with its `break`. -/
def statusExitCode : List Upload → Int → Int
  | [], exitCode => exitCode
  | upload :: rest, exitCode =>
    if upload.Status ≠ statusOK then 1 else statusExitCode rest exitCode

/-- The end of `run`, once the upload step returned without error (lines 296-320). -/
def runReport (args : Args) (w : World) (dests : List String) (field : String)
    (sent : List Request) (uploads : List Upload) : RunResult :=
  let exitCode : Int := 0
  let stdout := printURLs uploads
  let exitCode := statusExitCode uploads exitCode
  -- Ensure uploaded files are accessible through their URLs.
  if !args.OneShot then
    let v := verifyUploads w.probeEnvs uploads
    let exitCode := if !v.result then 1 else exitCode
    { dests := dests, field := field, sent := sent, stdout := stdout, verifyCalls := 1,
      probes := v.probes,
      err := if exitCode ≠ 0 then some (.text "one or more uploads failed") else none }
  else
    { dests := dests, field := field, sent := sent, stdout := stdout, verifyCalls := 0,
      probes := [],
      err := if exitCode ≠ 0 then some (.text "one or more uploads failed") else none }

/-- The function `run`; `none` when it panics. -/
def run (args : Args) (conf : Config) (w : World) : Option RunResult :=
  let uploadID := formatInt w.now
  let dests := runDests args uploadID
  let headers := runHeaders args conf
  match runUpload args conf w dests headers with
  | ⟨_, none, _⟩ => none
  | ⟨field, some (.early err), sent⟩ =>
    some { dests := dests, field := field, sent := sent, stdout := [], verifyCalls := 0,
           probes := [], err := some err }
  | ⟨field, some (.done _ (some err)), sent⟩ =>
    some { dests := dests, field := field, sent := sent, stdout := [], verifyCalls := 0,
           probes := [], err := some err }
  | ⟨field, some (.done uploads none), sent⟩ =>
    some (runReport args w dests field sent (uploads.getD []))

/-! ## Notions used to state the properties -/

/-- The error of a task result, if it is one. -/
def errOf (r : Option (Except GoError Upload)) : Option GoError :=
  match r with
  | some (.error e) => some e
  | _ => none

/-- The upload of a task result, if it is one. -/
def okOf (r : Option (Except GoError Upload)) : Option Upload :=
  match r with
  | some (.ok u) => some u
  | _ => none

/-- The shared variables when every goroutine of `uploadFiles` is done. -/
def finalShared (envs : Nat → Env) (order : List Nat) (baseURL : String)
    (headers : List (String × String)) (field : String) (files dests : List String)
    (verbose : Int) : Shared :=
  order.foldl (dispatchStep (taskResult envs baseURL headers field files dests verbose))
    { uploads := List.replicate files.length Upload.zero, errs := [] }

/-- An item is verified: its URL is non-empty, the probe request can be built, the
probe completes without error and its status is 200. -/
def verified (env : Env) (upload : Upload) : Prop :=
  upload.URL ≠ "" ∧ ∃ req resp, newRequest env "GET" upload.URL none = .ok req
    ∧ env.clientDo req = .ok resp ∧ resp.StatusCode = statusOK

/-- The request carries a multipart body of exactly one part, under the field name
given. -/
def usesField (req : Request) (name : String) : Prop :=
  ∃ part, req.body.map (fun m => m.parts) = some [part] ∧ part.fieldName = name

/-- The probe request of an item: none for an empty URL or when it cannot be built. -/
def probeOf (env : Env) (upload : Upload) : Option Request :=
  if upload.URL = "" then none
  else
    match newRequest env "GET" upload.URL none with
    | .error _ => none
    | .ok req => some req

/-! ## A sample world, for concrete instances -/

/-- A sample environment. The file `missing.txt` does not exist, `photos` is a directory,
reading `big.iso` fails after four bytes, any other file holds `hello`. The server
answers an upload with status 200 and a URL ending in the file name of the part. A probe
of a URL containing `gone` times out, any other probe gets status 200. -/
def sampleEnv : Env where
  osOpen := fun path =>
    if path = "missing.txt" then
      .error (.text "open missing.txt: no such file or directory")
    else if path = "photos" then
      .ok { content := "", fault := some (0, .text "read photos: is a directory") }
    else if path = "big.iso" then
      .ok { content := "0123456789", fault := some (4, .text "read big.iso: input/output error") }
    else
      .ok { content := "hello", fault := none }
  boundary := "7d1c0b"
  newRequestErr := fun _ url =>
    if url = "::" then some (.text "parse: missing protocol scheme") else none
  clientDo := fun req =>
    match req.body with
    | some m =>
      let name := (m.parts.head?.bind (fun part => part.fileName)).getD "Zx3"
      .ok { StatusCode := 200, Body := .ok ("https://paste.example/" ++ name ++ "\n") }
    | none =>
      if req.url = "https://paste.example/gone.1730000000.txt" then
        .error (.text "context deadline exceeded")
      else
        .ok { StatusCode := 200, Body := .ok "" }

/-- A sample configuration. -/
def sampleConf : Config :=
  { URL := "https://paste.example", Token := "secret", TokenCommand := "" }

/-- Sample arguments: the files given, no option. -/
def sampleArgs (files : List String) : Args :=
  { ConfigPath := "", ExpireTime := "", Filename := "", Files := files, NoID := false,
    OneShot := false, RemoteURL := "", StripExif := false, Suffix := "", URLToShorten := "",
    Verbose := 0 }

/-- Sample arguments: a remote URL to upload. -/
def sampleRemote : Args :=
  { sampleArgs [] with RemoteURL := "https://example.org/x.png" }

/-- Sample arguments: a URL to shorten, in one-shot mode or not. -/
def sampleShorten (oneShot : Bool) : Args :=
  { sampleArgs [] with URLToShorten := "https://example.org/long", OneShot := oneShot }

/-- Sample arguments: the files given, in one-shot mode. -/
def sampleOnce (files : List String) : Args :=
  { sampleArgs files with OneShot := true }

/-- A sample world: every call observes `sampleEnv`, and the goroutines of `uploadFiles`
enter the critical section in the order given. -/
def sampleWorld (order : List Nat) : World :=
  { now := 1730000000
    mkdirTemp := .ok "/tmp/ferripaste-1"
    copyWithoutExif := fun _ src destDir => .ok (destDir ++ "/1/" ++ src)
    urlEnv := sampleEnv
    fileEnvs := fun _ => sampleEnv
    order := order
    probeEnvs := fun _ => sampleEnv }

/-! ## Lemmas on the dispatcher -/

theorem foldl_dispatch_errs (task : Nat → Option (Except GoError Upload)) (order : List Nat)
    (s : Shared) :
    (order.foldl (dispatchStep task) s).errs = s.errs ++ order.filterMap (fun i => errOf (task i)) := by
  induction order generalizing s with
  | nil => simp
  | cons i rest ih =>
    rw [List.foldl_cons, ih]
    unfold dispatchStep
    rcases h : task i with _ | r
    · simp [errOf, h]
    · cases r with
      | error e => simp [errOf, h, commit, List.filterMap_cons]
      | ok u => simp [errOf, h, commit, List.filterMap_cons]

theorem foldl_dispatch_length (task : Nat → Option (Except GoError Upload)) (order : List Nat)
    (s : Shared) :
    (order.foldl (dispatchStep task) s).uploads.length = s.uploads.length := by
  induction order generalizing s with
  | nil => simp
  | cons i rest ih =>
    rw [List.foldl_cons, ih]
    unfold dispatchStep
    rcases h : task i with _ | r
    · rfl
    · cases r with
      | error e => simp [commit]
      | ok u => simp [commit]

theorem foldl_dispatch_get (task : Nat → Option (Except GoError Upload)) (order : List Nat)
    (s : Shared) (j : Nat) (hj : j < s.uploads.length) :
    (order.foldl (dispatchStep task) s).uploads[j]? =
      if j ∈ order then ((okOf (task j)).or s.uploads[j]?) else s.uploads[j]? := by
  induction order generalizing s with
  | nil => simp
  | cons i rest ih =>
    rw [List.foldl_cons]
    have hlen : (dispatchStep task s i).uploads.length = s.uploads.length := by
      unfold dispatchStep
      rcases h : task i with _ | r
      · rfl
      · cases r <;> simp [commit]
    rw [ih _ (by rw [hlen]; exact hj)]
    have hstep : (dispatchStep task s i).uploads[j]? =
        if i = j then ((okOf (task j)).or s.uploads[j]?) else s.uploads[j]? := by
      unfold dispatchStep
      by_cases hij : i = j
      · subst hij
        rcases h : task i with _ | r
        · simp [okOf]
        · cases r with
          | error e => simp [okOf, commit]
          | ok u => simp [okOf, commit, List.getElem?_set, hj]
      · rcases h : task i with _ | r
        · simp [hij]
        · cases r with
          | error e => simp [hij, commit]
          | ok u => simp [hij, commit, List.getElem?_set]
    rw [hstep]
    by_cases hij : i = j
    · subst hij
      rcases hok : okOf (task i) with _ | u
      · simp
      · simp
    · have hji : ¬ j = i := fun h => hij h.symm
      simp [hij, hji]

theorem uploadFiles_eq (envs : Nat → Env) (order : List Nat) (baseURL : String)
    (headers : List (String × String)) (field : String) (files dests : List String)
    (verbose : Int) (hlt : ¬ dests.length < files.length) :
    uploadFiles envs order baseURL headers field files dests verbose =
      if (finalShared envs order baseURL headers field files dests verbose).errs.length > 0
      then some (none,
        errorsJoin (finalShared envs order baseURL headers field files dests verbose).errs)
      else some (some (finalShared envs order baseURL headers field files dests verbose).uploads,
        none) := by
  unfold uploadFiles finalShared
  simp only [hlt, if_false]

theorem uploadFile_name (env : Env) (baseURL : String) (headers : List (String × String))
    (field file dest : String) (verbose : Int) (u : Upload)
    (h : (uploadFile env baseURL headers field file dest verbose).ret = .ok u) :
    u.Name = filepathBase file := by
  unfold uploadFile at h
  split at h
  · cases h
  · dsimp only at h
    split at h
    · cases h
    · split at h
      · cases h
      · split at h
        · cases h
        · cases h
          rfl

theorem taskResult_eq (envs : Nat → Env) (baseURL : String) (headers : List (String × String))
    (field : String) (files dests : List String) (verbose : Int) (i : Nat) (file dest : String)
    (hf : files[i]? = some file) (hdst : dests[i]? = some dest) :
    taskResult envs baseURL headers field files dests verbose i
      = some (uploadFile (envs i) baseURL headers field file dest verbose).ret := by
  unfold taskResult taskCall
  rw [hf, hdst]
  rfl

theorem finalShared_uploads_getElem? (envs : Nat → Env) (order : List Nat) (baseURL : String)
    (headers : List (String × String)) (field : String) (files dests : List String)
    (verbose : Int) (ho : order.Perm (List.range files.length)) (j : Nat) (u : Upload)
    (hj : j < files.length)
    (hu : taskResult envs baseURL headers field files dests verbose j = some (.ok u)) :
    (finalShared envs order baseURL headers field files dests verbose).uploads[j]? = some u := by
  unfold finalShared
  rw [foldl_dispatch_get _ _ _ _ (by simpa using hj)]
  have hmem : j ∈ order := (ho.mem_iff).mpr (List.mem_range.mpr hj)
  simp [hmem, hu, okOf]

/-! ## Claims on the dispatcher -/

/-- C1: for a batch of N files with N destination names and any completion order,
`uploadFiles` returns either a list of exactly N entries and no error, when no task
failed, or no list and the aggregate of `errors.Join`, when at least one task failed;
the aggregate holds the error of every failed task, once each. -/
theorem uploadFiles_all_or_aggregate (envs : Nat → Env) (order : List Nat) (baseURL : String)
    (headers : List (String × String)) (field : String) (files dests : List String)
    (verbose : Int) (hd : dests.length = files.length)
    (ho : order.Perm (List.range files.length)) :
    let task := taskResult envs baseURL headers field files dests verbose
    let failed := (List.range files.length).filterMap (fun i => errOf (task i))
    (failed = [] ∧ ∃ ups,
        uploadFiles envs order baseURL headers field files dests verbose = some (some ups, none)
        ∧ ups.length = files.length)
    ∨ (failed ≠ [] ∧ ∃ errs,
        uploadFiles envs order baseURL headers field files dests verbose
          = some (none, some (.join errs))
        ∧ errs.Perm failed) := by
  intro task failed
  have hperm : (order.filterMap (fun i => errOf (task i))).Perm failed := ho.filterMap _
  have hlt : ¬ dests.length < files.length := by omega
  have herrs : (finalShared envs order baseURL headers field files dests verbose).errs
      = order.filterMap (fun i => errOf (task i)) := by
    unfold finalShared
    rw [foldl_dispatch_errs]
    rfl
  have hlen : (finalShared envs order baseURL headers field files dests verbose).uploads.length
      = files.length := by
    unfold finalShared
    rw [foldl_dispatch_length]
    simp
  rw [uploadFiles_eq _ _ _ _ _ _ _ _ hlt, herrs]
  by_cases hf : failed = []
  · left
    have hnil : order.filterMap (fun i => errOf (task i)) = [] := by
      rw [hf] at hperm
      exact hperm.eq_nil
    exact ⟨hf, _, by simp [hnil], hlen⟩
  · right
    have hne : order.filterMap (fun i => errOf (task i)) ≠ [] := by
      intro h
      rw [h] at hperm
      exact hf hperm.symm.eq_nil
    have hpos : (order.filterMap (fun i => errOf (task i))).length > 0 :=
      List.length_pos.mpr hne
    exact ⟨hf, _, by simp [hpos, errorsJoin, hne], hperm⟩

/-- C2: when every upload task of the batch succeeds, there is one list of N entries
that `uploadFiles` returns for every completion order, and its `i`-th entry is the
result of uploading `files[i]` under `dests[i]`, with the base name of `files[i]` as
its `Name`. -/
theorem uploadFiles_index_fidelity (envs : Nat → Env) (baseURL : String)
    (headers : List (String × String)) (field : String) (files dests : List String)
    (verbose : Int) (hd : dests.length = files.length)
    (hall : ∀ i file dest, files[i]? = some file → dests[i]? = some dest →
      ∃ u, (uploadFile (envs i) baseURL headers field file dest verbose).ret = .ok u) :
    ∃ ups : List Upload, ups.length = files.length
      ∧ (∀ order : List Nat, order.Perm (List.range files.length) →
          uploadFiles envs order baseURL headers field files dests verbose
            = some (some ups, none))
      ∧ (∀ i file dest, files[i]? = some file → dests[i]? = some dest →
          ∃ u, ups[i]? = some u
            ∧ (uploadFile (envs i) baseURL headers field file dest verbose).ret = .ok u
            ∧ u.Name = filepathBase file) := by
  have hlt : ¬ dests.length < files.length := by omega
  -- every task has a result, and it is an upload
  have htask : ∀ i, i < files.length → ∃ u,
      taskResult envs baseURL headers field files dests verbose i = some (.ok u) := by
    intro i hi
    have hf : files[i]? = some files[i] := List.getElem?_eq_getElem hi
    have hi2 : i < dests.length := by omega
    have hdst : dests[i]? = some dests[i] := List.getElem?_eq_getElem hi2
    obtain ⟨u, hu⟩ := hall i _ _ hf hdst
    exact ⟨u, by rw [taskResult_eq _ _ _ _ _ _ _ _ _ _ hf hdst, hu]⟩
  refine ⟨(List.range files.length).map (fun i =>
    (okOf (taskResult envs baseURL headers field files dests verbose i)).getD Upload.zero),
    by simp, ?_, ?_⟩
  · intro order ho
    have herrs : (finalShared envs order baseURL headers field files dests verbose).errs = [] := by
      unfold finalShared
      rw [foldl_dispatch_errs]
      simp only [List.nil_append]
      rw [List.filterMap_eq_nil_iff]
      intro i hi
      have hi2 : i < files.length := List.mem_range.mp ((ho.mem_iff).mp hi)
      obtain ⟨u, hu⟩ := htask i hi2
      simp [hu, errOf]
    have hlen : (finalShared envs order baseURL headers field files dests verbose).uploads.length
        = files.length := by
      unfold finalShared
      rw [foldl_dispatch_length]
      simp
    have hups : (finalShared envs order baseURL headers field files dests verbose).uploads
        = (List.range files.length).map (fun i =>
          (okOf (taskResult envs baseURL headers field files dests verbose i)).getD
            Upload.zero) := by
      apply List.ext_getElem?
      intro j
      by_cases hj : j < files.length
      · obtain ⟨u, hu⟩ := htask j hj
        rw [finalShared_uploads_getElem? _ _ _ _ _ _ _ _ ho j u hj hu]
        rw [List.getElem?_map, List.getElem?_range hj]
        simp [hu, okOf]
      · rw [List.getElem?_eq_none (by omega), List.getElem?_eq_none (by simp; omega)]
    rw [uploadFiles_eq _ _ _ _ _ _ _ _ hlt, herrs, hups]
    simp
  · intro i file dest hf hdst
    obtain ⟨u, hu⟩ := hall i file dest hf hdst
    have hi : i < files.length := (List.getElem?_eq_some.mp hf).1
    refine ⟨u, ?_, hu, uploadFile_name _ _ _ _ _ _ _ _ hu⟩
    rw [List.getElem?_map, List.getElem?_range hi]
    simp [taskResult_eq _ _ _ _ _ _ _ _ _ _ hf hdst, hu, okOf]

/-! ## Claims on the verifier -/

theorem verifyStep_result (env : Env) (s : Verify) (upload : Upload) :
    (verifyStep env s upload).result = true ↔ s.result = true ∧ verified env upload := by
  unfold verifyStep verified
  by_cases hu : upload.URL = ""
  · simp [hu]
  · simp only [hu, if_false, ne_eq, not_false_eq_true, true_and]
    cases hr : newRequest env "GET" upload.URL none with
    | error e => simp
    | ok req =>
      cases hd : env.clientDo req with
      | error e => simp [hd]
      | ok resp =>
        by_cases hs : resp.StatusCode = statusOK
        · simp [hd, hs]
        · simp [hd, hs]

theorem verifyStep_probes (env : Env) (s : Verify) (upload : Upload) :
    (verifyStep env s upload).probes = s.probes ++ (probeOf env upload).toList := by
  unfold verifyStep probeOf
  by_cases hu : upload.URL = ""
  · simp [hu]
  · simp only [hu, if_false]
    cases hr : newRequest env "GET" upload.URL none with
    | error e => simp
    | ok req =>
      cases hd : env.clientDo req with
      | error e => simp [hd]
      | ok resp =>
        by_cases hs : resp.StatusCode = statusOK
        · simp [hd, hs]
        · simp [hd, hs]

theorem verifyLoop_result (envs : Nat → Env) (k : Nat) (uploads : List Upload) (s : Verify) :
    (verifyLoop envs k uploads s).result = true ↔
      s.result = true ∧ ∀ p ∈ uploads.enumFrom k, verified (envs p.1) p.2 := by
  induction uploads generalizing k s with
  | nil => simp [verifyLoop]
  | cons u rest ih =>
    rw [verifyLoop, ih, verifyStep_result, List.enumFrom_cons]
    simp only [List.mem_cons, forall_eq_or_imp, and_assoc]

theorem verifyLoop_probes (envs : Nat → Env) (k : Nat) (uploads : List Upload) (s : Verify) :
    (verifyLoop envs k uploads s).probes =
      s.probes ++ (uploads.enumFrom k).filterMap (fun p => probeOf (envs p.1) p.2) := by
  induction uploads generalizing k s with
  | nil => simp [verifyLoop]
  | cons u rest ih =>
    rw [verifyLoop, ih, verifyStep_probes, List.enumFrom_cons, List.filterMap_cons]
    cases probeOf (envs k) u <;> simp

theorem probeOf_url (env : Env) (upload : Upload) (req : Request)
    (h : probeOf env upload = some req) : req.url = upload.URL ∧ upload.URL ≠ "" := by
  unfold probeOf at h
  by_cases hu : upload.URL = ""
  · simp [hu] at h
  · simp only [hu, if_false] at h
    unfold newRequest at h
    cases hn : env.newRequestErr "GET" upload.URL with
    | some e => simp [hn] at h
    | none =>
      simp only [hn, Option.some.injEq] at h
      subst h
      exact ⟨rfl, hu⟩

theorem verifyUploads_result_iff (envs : Nat → Env) (uploads : List Upload) :
    (verifyUploads envs uploads).result = true ↔
      ∀ i upload, uploads[i]? = some upload → verified (envs i) upload := by
  unfold verifyUploads
  rw [verifyLoop_result]
  simp only [true_and]
  constructor
  · intro h i upload hi
    exact h (i, upload) (List.mk_mem_enum_iff_getElem?.mpr hi)
  · intro h p hp
    exact h p.1 p.2 (List.mem_enum_iff_getElem?.mp hp)

theorem verifyUploads_probes_eq (envs : Nat → Env) (uploads : List Upload) :
    (verifyUploads envs uploads).probes
      = uploads.enum.filterMap (fun p => probeOf (envs p.1) p.2) := by
  unfold verifyUploads
  rw [verifyLoop_probes]
  simp [List.enum]

/-- C4: `verifyUploads` returns true exactly when every item is verified (non-empty URL,
probe request built, probe completed without error, status 200); an item with an empty
URL makes the result false and is not probed; and every item with a non-empty URL whose
request can be built is probed, in input order, whatever happened to the other items. -/
theorem verifyUploads_true_iff_all_verified (envs : Nat → Env) (uploads : List Upload) :
    ((verifyUploads envs uploads).result = true ↔
        ∀ i upload, uploads[i]? = some upload → verified (envs i) upload)
    ∧ ((∃ upload ∈ uploads, upload.URL = "") → (verifyUploads envs uploads).result = false)
    ∧ (verifyUploads envs uploads).probes
        = uploads.enum.filterMap (fun p => probeOf (envs p.1) p.2)
    ∧ (∀ req ∈ (verifyUploads envs uploads).probes, req.url ≠ "") := by
  refine ⟨verifyUploads_result_iff envs uploads, ?_, verifyUploads_probes_eq envs uploads, ?_⟩
  · rintro ⟨upload, hmem, hurl⟩
    cases hres : (verifyUploads envs uploads).result with
    | false => rfl
    | true =>
      exfalso
      obtain ⟨i, hi⟩ := List.getElem?_of_mem hmem
      exact ((verifyUploads_result_iff envs uploads).mp hres i upload hi).1 hurl
  · intro req hreq
    rw [verifyUploads_probes_eq, List.mem_filterMap] at hreq
    obtain ⟨p, _, hp⟩ := hreq
    have := probeOf_url _ _ _ hp
    rw [this.1]
    exact this.2

/-! ## Lemmas on `parseArgs` and `run` -/

theorem parseArgs_ok (raw args : Args) (hp : parseArgs raw = .ok args) :
    args = raw
    ∧ ((args.Files ≠ [] ∧ args.RemoteURL = "" ∧ args.URLToShorten = "")
      ∨ (args.Files = [] ∧ args.RemoteURL ≠ "" ∧ args.URLToShorten = "")
      ∨ (args.Files = [] ∧ args.RemoteURL = "" ∧ args.URLToShorten ≠ ""))
    ∧ (args.Filename ≠ "" → args.Files.length ≤ 1)
    ∧ (args.OneShot = true → args.RemoteURL = "") := by
  unfold parseArgs at hp
  simp only at hp
  have hF : raw.Files = [] ↔ ¬ raw.Files.length > 0 := by
    cases raw.Files <;> simp
  split_ifs at hp <;> first | omega | skip
  all_goals
    cases hp
    refine ⟨rfl, ?_, ?_, ?_⟩
    · simp_all
    · intro hfn
      by_contra hlen
      exact ‹¬(raw.Filename ≠ "" ∧ raw.Files.length > 1)› ⟨hfn, by omega⟩
    · intro ho
      by_contra hr
      exact ‹¬(raw.OneShot = true ∧ raw.RemoteURL ≠ "")› ⟨ho, hr⟩

theorem foldl_append_singleton {α β : Type} (f : α → β) (xs : List α) (init : List β) :
    xs.foldl (fun acc x => acc ++ [f x]) init = init ++ xs.map f := by
  induction xs generalizing init with
  | nil => simp
  | cons x rest ih => simp [ih]

theorem runDests_eq_map (args : Args) (uploadID : String) (hf : args.Filename = "") :
    runDests args uploadID = args.Files.map (destName args uploadID) := by
  unfold runDests
  by_cases h0 : args.Files.length > 0
  · simp only [h0, if_true, hf, ne_eq, not_true_eq_false, if_false]
    rw [foldl_append_singleton]
    simp
  · have : args.Files = [] := by
      cases hfs : args.Files with
      | nil => rfl
      | cons a l => simp [hfs] at h0
    simp [this]

theorem runDests_length (args : Args) (uploadID : String)
    (h : args.Filename ≠ "" → args.Files.length ≤ 1) :
    (runDests args uploadID).length = args.Files.length := by
  by_cases hf : args.Filename = ""
  · rw [runDests_eq_map _ _ hf]
    simp
  · have hle := h hf
    unfold runDests
    by_cases h0 : args.Files.length > 0
    · simp only [h0, if_true, ne_eq, hf, not_false_eq_true, List.length_singleton]
      omega
    · simp only [h0, if_false, List.length_nil]
      omega

theorem stripAll_length (w : World) (tempDir : String) (i : Nat) (files processed : List String)
    (h : stripAll w tempDir i files = .ok processed) : processed.length = files.length := by
  induction files generalizing i processed with
  | nil =>
    simp only [stripAll, Except.ok.injEq] at h
    subst h
    rfl
  | cons file rest ih =>
    unfold stripAll at h
    split at h
    · cases h
    · split at h
      · cases h
      · rename_i ps hps
        cases h
        simp [ih _ _ hps]

theorem printURLs_eq (uploads : List Upload) :
    printURLs uploads = (uploads.filter (fun u => u.URL ≠ "")).map (fun u => u.URL) := by
  have key : ∀ (ups : List Upload) (init : List String),
      ups.foldl (fun out upload => if upload.URL ≠ "" then out ++ [upload.URL] else out) init
        = init ++ (ups.filter (fun u => u.URL ≠ "")).map (fun u => u.URL) := by
    intro ups
    induction ups with
    | nil => simp
    | cons u rest ih =>
      intro init
      rw [List.foldl_cons, ih]
      by_cases hu : u.URL = ""
      · simp [hu]
      · simp [hu]
  unfold printURLs
  rw [key]
  simp

theorem statusExitCode_eq (uploads : List Upload) (exitCode : Int) :
    statusExitCode uploads exitCode
      = if ∃ u ∈ uploads, u.Status ≠ statusOK then 1 else exitCode := by
  induction uploads with
  | nil => simp [statusExitCode]
  | cons u rest ih =>
    unfold statusExitCode
    by_cases hu : u.Status = statusOK
    · simp [hu, ih]
    · simp [hu]

theorem run_of_done (args : Args) (conf : Config) (w : World) (uploads : Option (List Upload))
    (h : (uploadStep args conf w).2 = some (.done uploads none)) :
    run args conf w = some (runReport args w (runDests args (formatInt w.now))
      (uploadStep args conf w).1
      (runUpload args conf w (runDests args (formatInt w.now)) (runHeaders args conf)).sent
      (uploads.getD [])) := by
  unfold uploadStep at h ⊢
  unfold run
  simp only at h ⊢
  generalize runUpload args conf w (runDests args (formatInt w.now)) (runHeaders args conf) = p
    at h ⊢
  obtain ⟨f, st, sent⟩ := p
  simp only at h
  subst h
  rfl

theorem runReport_fields (args : Args) (w : World) (dests : List String) (field : String)
    (sent : List Request) (uploads : List Upload) :
    (runReport args w dests field sent uploads).field = field
      ∧ (runReport args w dests field sent uploads).dests = dests
      ∧ (runReport args w dests field sent uploads).sent = sent := by
  unfold runReport
  simp only
  split <;> exact ⟨rfl, rfl, rfl⟩

theorem run_of_some (args : Args) (conf : Config) (w : World) (st : UploadStep)
    (h : (uploadStep args conf w).2 = some st) :
    ∃ r, run args conf w = some r ∧ r.field = (uploadStep args conf w).1
      ∧ r.dests = runDests args (formatInt w.now)
      ∧ r.sent = (runUpload args conf w (runDests args (formatInt w.now))
          (runHeaders args conf)).sent := by
  unfold uploadStep at h ⊢
  unfold run
  simp only at h ⊢
  generalize runUpload args conf w (runDests args (formatInt w.now)) (runHeaders args conf) = p
    at h ⊢
  obtain ⟨f, st', sent⟩ := p
  simp only at h
  subst h
  cases st with
  | early err => exact ⟨_, rfl, rfl, rfl, rfl⟩
  | done uploads err =>
    cases err with
    | some e => exact ⟨_, rfl, rfl, rfl, rfl⟩
    | none =>
      have hfields := runReport_fields args w (runDests args (formatInt w.now)) f sent
        (uploads.getD [])
      exact ⟨_, rfl, hfields.1, hfields.2.1, hfields.2.2⟩

theorem uploadStep_field (args : Args) (conf : Config) (w : World) :
    (uploadStep args conf w).1 =
      if args.RemoteURL ≠ "" then fieldRemote
      else if args.URLToShorten ≠ "" then (if args.OneShot then fieldOneshotURL else fieldURL)
      else (if args.OneShot then fieldOneshot else fieldFile) := by
  unfold uploadStep runUpload
  by_cases hr : args.RemoteURL = ""
  · by_cases hu : args.URLToShorten = ""
    · simp only [hr, hu, ne_eq, not_true_eq_false, if_false]
      split <;> rfl
    · simp [hr, hu]
  · simp [hr]

theorem uploadFiles_some (envs : Nat → Env) (order : List Nat) (baseURL : String)
    (headers : List (String × String)) (field : String) (files dests : List String)
    (verbose : Int) (hlt : ¬ dests.length < files.length) :
    ∃ r, uploadFiles envs order baseURL headers field files dests verbose = some r := by
  rw [uploadFiles_eq _ _ _ _ _ _ _ _ hlt]
  split <;> exact ⟨_, rfl⟩

theorem uploadStep_some (raw args : Args) (conf : Config) (w : World)
    (hp : parseArgs raw = .ok args) : ∃ st, (uploadStep args conf w).2 = some st := by
  obtain ⟨_, _, hlen, _⟩ := parseArgs_ok raw args hp
  have hd := runDests_length args (formatInt w.now) hlen
  unfold uploadStep runUpload
  by_cases hr : args.RemoteURL = ""
  · by_cases hu : args.URLToShorten = ""
    · simp only [hr, hu, ne_eq, not_true_eq_false, if_false]
      split
      · exact ⟨_, rfl⟩
      · rename_i processed hpr
        have hplen : processed.length = args.Files.length := by
          by_cases hs : args.StripExif = true
          · simp only [hs, if_true] at hpr
            split at hpr
            · cases hpr
            · exact stripAll_length _ _ _ _ _ hpr
          · simp only [hs] at hpr
            cases hpr
            rfl
        have hlt : ¬ (runDests args (formatInt w.now)).length < processed.length := by omega
        obtain ⟨r, hr⟩ := uploadFiles_some w.fileEnvs w.order conf.URL (runHeaders args conf)
          (if args.OneShot = true then fieldOneshot else fieldFile) processed
          (runDests args (formatInt w.now)) args.Verbose hlt
        simp only [uploadFilesTraced, hr]
        exact ⟨_, rfl⟩
    · simp [hr, hu]
  · simp [hr]

theorem runReport_err (args : Args) (w : World) (dests : List String) (field : String)
    (sent : List Request) (uploads : List Upload) :
    (((∃ u ∈ uploads, u.Status ≠ 200)
        ∨ (args.OneShot = false ∧ (verifyUploads w.probeEnvs uploads).result = false))
      → (runReport args w dests field sent uploads).err
          = some (.text "one or more uploads failed"))
    ∧ (¬ ((∃ u ∈ uploads, u.Status ≠ 200)
        ∨ (args.OneShot = false ∧ (verifyUploads w.probeEnvs uploads).result = false))
      → (runReport args w dests field sent uploads).err = none) := by
  unfold runReport
  simp only [statusExitCode_eq, statusOK]
  by_cases hs : ∃ u ∈ uploads, u.Status ≠ 200
  · cases hO : args.OneShot <;> cases hv : (verifyUploads w.probeEnvs uploads).result
      <;> simp [hs]
  · cases hO : args.OneShot <;> cases hv : (verifyUploads w.probeEnvs uploads).result
      <;> simp [hs]

theorem runReport_stdout (args : Args) (w : World) (dests : List String) (field : String)
    (sent : List Request) (uploads : List Upload) :
    (runReport args w dests field sent uploads).stdout
      = (uploads.filter (fun u => u.URL ≠ "")).map (fun u => u.URL) := by
  unfold runReport
  simp only [printURLs_eq]
  split <;> rfl

theorem runReport_oneshot (args : Args) (w : World) (dests : List String) (field : String)
    (sent : List Request) (uploads : List Upload) (h1 : args.OneShot = true) :
    (runReport args w dests field sent uploads).verifyCalls = 0
      ∧ (runReport args w dests field sent uploads).probes = [] := by
  unfold runReport
  simp [h1]

theorem stripAll_probeEnvs (w : World) (pe : Nat → Env) (tempDir : String) (i : Nat)
    (files : List String) :
    stripAll { w with probeEnvs := pe } tempDir i files = stripAll w tempDir i files := by
  induction files generalizing i with
  | nil => rfl
  | cons file rest ih =>
    unfold stripAll
    rw [ih]

theorem runUpload_probeEnvs (args : Args) (conf : Config) (w : World) (pe : Nat → Env)
    (dests : List String) (headers : List (String × String)) :
    runUpload args conf { w with probeEnvs := pe } dests headers
      = runUpload args conf w dests headers := by
  unfold runUpload
  simp only [stripAll_probeEnvs]

theorem runReport_probeEnvs (args : Args) (w : World) (pe : Nat → Env) (dests : List String)
    (field : String) (sent : List Request) (uploads : List Upload)
    (h1 : args.OneShot = true) :
    runReport args { w with probeEnvs := pe } dests field sent uploads
      = runReport args w dests field sent uploads := by
  unfold runReport
  simp [h1]

theorem run_probeEnvs (args : Args) (conf : Config) (w : World) (pe : Nat → Env)
    (h1 : args.OneShot = true) :
    run args conf { w with probeEnvs := pe } = run args conf w := by
  unfold run
  simp only [runUpload_probeEnvs]
  generalize runUpload args conf w (runDests args (formatInt w.now)) (runHeaders args conf) = p
  obtain ⟨f, st, sent⟩ := p
  cases st with
  | none => rfl
  | some st =>
    cases st with
    | early e => rfl
    | done u e =>
      cases e with
      | some e => rfl
      | none => simp only [runReport_probeEnvs _ _ _ _ _ _ _ h1]

/-! ## Claims on the outcome of `run` -/

/-- C3: when the upload step returned a list of results and no hard error, `run`
returns the error "one or more uploads failed" if some result's status is not 200 or if
one-shot mode is off and `verifyUploads` returned false, and returns no error otherwise;
in particular, with one-shot mode off, a result with status 200 that is not verified
(its probe fails or times out) makes `run` return that error. -/
theorem run_outcome (args : Args) (conf : Config) (w : World) (ups : List Upload)
    (h : (uploadStep args conf w).2 = some (.done (some ups) none)) :
    ∃ r, run args conf w = some r
      ∧ (((∃ u ∈ ups, u.Status ≠ 200)
            ∨ (args.OneShot = false ∧ (verifyUploads w.probeEnvs ups).result = false))
          → r.err = some (.text "one or more uploads failed"))
      ∧ (¬ ((∃ u ∈ ups, u.Status ≠ 200)
            ∨ (args.OneShot = false ∧ (verifyUploads w.probeEnvs ups).result = false))
          → r.err = none)
      ∧ (args.OneShot = false → ∀ i u, ups[i]? = some u → u.Status = 200 →
          ¬ verified (w.probeEnvs i) u →
          r.err = some (.text "one or more uploads failed")) := by
  refine ⟨_, run_of_done args conf w (some ups) h, ?_, ?_, ?_⟩
  · exact (runReport_err args w _ _ _ ups).1
  · exact (runReport_err args w _ _ _ ups).2
  · intro hO i u hi _ hnv
    apply (runReport_err args w _ _ _ ups).1
    right
    refine ⟨hO, ?_⟩
    cases hres : (verifyUploads w.probeEnvs ups).result with
    | false => rfl
    | true =>
      exfalso
      exact hnv ((verifyUploads_result_iff w.probeEnvs ups).mp hres i u hi)

/-- C5: for accepted arguments in one-shot mode, `run` returns without calling
`verifyUploads` and without issuing a verification probe, and what it returns does not
depend on what a probe would observe; when the upload step returned results and no hard
error, `run` succeeds exactly when every result's status is 200. -/
theorem run_oneshot_no_verification (raw args : Args) (conf : Config) (w : World)
    (hp : parseArgs raw = .ok args) (h1 : args.OneShot = true) :
    ∃ r, run args conf w = some r
      ∧ r.verifyCalls = 0 ∧ r.probes = []
      ∧ (∀ pe : Nat → Env, run args conf { w with probeEnvs := pe } = some r)
      ∧ (∀ ups, (uploadStep args conf w).2 = some (.done (some ups) none) →
          (r.err = none ↔ ∀ u ∈ ups, u.Status = 200)) := by
  obtain ⟨st, hst⟩ := uploadStep_some raw args conf w hp
  have hrun : ∃ r, run args conf w = some r ∧ r.verifyCalls = 0 ∧ r.probes = [] := by
    cases st with
    | early e =>
      obtain ⟨r, hr, -, -, -⟩ := run_of_some args conf w _ hst
      refine ⟨r, hr, ?_⟩
      unfold uploadStep at hst
      unfold run at hr
      simp only at hr
      generalize runUpload args conf w (runDests args (formatInt w.now))
        (runHeaders args conf) = p at hst hr
      obtain ⟨f, st', sent⟩ := p
      simp only at hst
      subst hst
      simp only [Option.some.injEq] at hr
      subst hr
      exact ⟨rfl, rfl⟩
    | done u e =>
      cases e with
      | some e =>
        obtain ⟨r, hr, -, -, -⟩ := run_of_some args conf w _ hst
        refine ⟨r, hr, ?_⟩
        unfold uploadStep at hst
        unfold run at hr
        simp only at hr
        generalize runUpload args conf w (runDests args (formatInt w.now))
          (runHeaders args conf) = p at hst hr
        obtain ⟨f, st', sent⟩ := p
        simp only at hst
        subst hst
        simp only [Option.some.injEq] at hr
        subst hr
        exact ⟨rfl, rfl⟩
      | none =>
        exact ⟨_, run_of_done args conf w u hst, runReport_oneshot args w _ _ _ _ h1⟩
  obtain ⟨r, hr, hv, hpr⟩ := hrun
  refine ⟨r, hr, hv, hpr, ?_, ?_⟩
  · intro pe
    rw [run_probeEnvs _ _ _ _ h1, hr]
  · intro ups hups
    rw [run_of_done args conf w (some ups) hups] at hr
    simp only [Option.some.injEq] at hr
    subst hr
    have herr := runReport_err args w (runDests args (formatInt w.now))
      (uploadStep args conf w).1
      (runUpload args conf w (runDests args (formatInt w.now)) (runHeaders args conf)).sent ups
    simp only [h1, Bool.true_eq_false, false_and, or_false] at herr
    simp only [Option.getD_some]
    constructor
    · intro hnone u hu
      by_contra hne
      have := herr.1 ⟨u, hu, hne⟩
      rw [hnone] at this
      cases this
    · intro hall
      apply herr.2
      rintro ⟨u, hu, hne⟩
      exact hne (hall u hu)

/-- C6 (amended): when the upload step returned a list of results and no hard error,
`run` prints the non-empty URLs of the results, one per line and in input order,
whether it then reports success or failure. -/
theorem run_prints_urls (args : Args) (conf : Config) (w : World) (ups : List Upload)
    (h : (uploadStep args conf w).2 = some (.done (some ups) none)) :
    ∃ r, run args conf w = some r
      ∧ r.stdout = (ups.filter (fun u => u.URL ≠ "")).map (fun u => u.URL) := by
  exact ⟨_, run_of_done args conf w (some ups) h, runReport_stdout args w _ _ _ ups⟩

/-! ## Lemmas on the requests sent -/

theorem foldl_setHeader_body (headers : List (String × String)) (req : Request) :
    (headers.foldl (fun r kv => r.setHeader kv.1 kv.2) req).body = req.body := by
  induction headers generalizing req with
  | nil => rfl
  | cons kv rest ih =>
    rw [List.foldl_cons, ih]
    rfl

theorem newRequest_ok (env : Env) (method url : String) (body : Option Multipart)
    (req : Request) (h : newRequest env method url body = .ok req) :
    env.newRequestErr method url = none ∧ req.body = body := by
  unfold newRequest at h
  cases hn : env.newRequestErr method url with
  | some e => simp [hn] at h
  | none =>
    simp only [hn, Except.ok.injEq] at h
    subst h
    exact ⟨rfl, rfl⟩

theorem newRequest_of_valid (env : Env) (method url : String) (body : Option Multipart)
    (h : env.newRequestErr method url = none) :
    ∃ req, newRequest env method url body = .ok req ∧ req.body = body := by
  unfold newRequest
  rw [h]
  exact ⟨_, rfl, rfl⟩

theorem uploadFile_sent_mem (env : Env) (baseURL : String) (headers : List (String × String))
    (field file dest : String) (verbose : Int) (req : Request)
    (h : req ∈ (uploadFile env baseURL headers field file dest verbose).sent) :
    ∃ f, env.osOpen file = .ok f
      ∧ req.body = some (newMultipartWriter env.boundary field dest f) := by
  unfold uploadFile at h
  cases ho : env.osOpen file with
  | error e => simp [ho] at h
  | ok f =>
    refine ⟨f, rfl, ?_⟩
    simp only [ho] at h
    cases hn : newRequest env "POST" baseURL
        (some (newMultipartWriter env.boundary field dest f)) with
    | error e => simp [hn] at h
    | ok req0 =>
      have hb := (newRequest_ok _ _ _ _ _ hn).2
      simp only [hn] at h
      have hreq : req = (headers.foldl (fun r kv => r.setHeader kv.1 kv.2) req0).setHeader
          "Content-Type" (newMultipartWriter env.boundary field dest f).formDataContentType := by
        split at h
        · simpa using h
        · split at h
          · simpa using h
          · simpa using h
      rw [hreq]
      show (headers.foldl (fun r kv => r.setHeader kv.1 kv.2) req0).body = _
      rw [foldl_setHeader_body, hb]

theorem uploadFile_sent_of_ok (env : Env) (baseURL : String) (headers : List (String × String))
    (field file dest : String) (verbose : Int) (f : File) (ho : env.osOpen file = .ok f)
    (hv : env.newRequestErr "POST" baseURL = none) :
    ∃ req, (uploadFile env baseURL headers field file dest verbose).sent = [req] := by
  obtain ⟨req0, hn, -⟩ := newRequest_of_valid env "POST" baseURL
    (some (newMultipartWriter env.boundary field dest f)) hv
  unfold uploadFile
  simp only [ho, hn]
  split
  · exact ⟨_, rfl⟩
  · split <;> exact ⟨_, rfl⟩

theorem uploadURL_sent_mem (env : Env) (baseURL : String) (headers : List (String × String))
    (field url : String) (verbose : Int) (req : Request)
    (h : req ∈ (uploadURL env baseURL headers field url verbose).sent) :
    req.body = some (newMultipartWriterForText env.boundary field url) := by
  unfold uploadURL at h
  simp only at h
  cases hn : newRequest env "POST" baseURL
      (some (newMultipartWriterForText env.boundary field url)) with
  | error e => simp [hn] at h
  | ok req0 =>
    have hb := (newRequest_ok _ _ _ _ _ hn).2
    simp only [hn] at h
    have hreq : req = (headers.foldl (fun r kv => r.setHeader kv.1 kv.2) req0).setHeader
        "Content-Type" (newMultipartWriterForText env.boundary field url).formDataContentType := by
      split at h
      · simpa using h
      · split at h
        · simpa using h
        · simpa using h
    rw [hreq]
    show (headers.foldl (fun r kv => r.setHeader kv.1 kv.2) req0).body = _
    rw [foldl_setHeader_body, hb]

theorem uploadURL_sent_of_valid (env : Env) (baseURL : String)
    (headers : List (String × String)) (field url : String) (verbose : Int)
    (hv : env.newRequestErr "POST" baseURL = none) :
    ∃ req, (uploadURL env baseURL headers field url verbose).sent = [req] := by
  obtain ⟨req0, hn, -⟩ := newRequest_of_valid env "POST" baseURL
    (some (newMultipartWriterForText env.boundary field url)) hv
  unfold uploadURL
  simp only [hn]
  split
  · exact ⟨_, rfl⟩
  · split <;> exact ⟨_, rfl⟩

theorem usesField_of_file (req : Request) (boundary field dest : String) (f : File)
    (h : req.body = some (newMultipartWriter boundary field dest f)) :
    ∃ part, req.body.map (fun m => m.parts) = some [part]
      ∧ part.fieldName = escapeQuotes field ∧ part.fileName = some (escapeQuotes dest) := by
  rw [h]
  exact ⟨_, rfl, rfl, rfl⟩

theorem usesField_of_text (req : Request) (boundary field value : String)
    (h : req.body = some (newMultipartWriterForText boundary field value)) :
    ∃ part, req.body.map (fun m => m.parts) = some [part]
      ∧ part.fieldName = escapeQuotes field ∧ part.content = value := by
  rw [h]
  refine ⟨_, rfl, rfl, ?_⟩
  show "" ++ value = value
  exact String.ext (by simp)

theorem uploadFilesSent_mem (envs : Nat → Env) (baseURL : String)
    (headers : List (String × String)) (field : String) (files dests : List String)
    (verbose : Int) (req : Request)
    (h : req ∈ uploadFilesSent envs baseURL headers field files dests verbose) :
    usesField req (escapeQuotes field) := by
  unfold uploadFilesSent at h
  rw [List.mem_flatMap] at h
  obtain ⟨i, -, hi⟩ := h
  unfold taskSent taskCall at hi
  split at hi
  · rename_i c hc
    split at hc
    · simp only [Option.some.injEq] at hc
      subst hc
      obtain ⟨f, -, hb⟩ := uploadFile_sent_mem _ _ _ _ _ _ _ _ hi
      obtain ⟨part, h1, h2, -⟩ := usesField_of_file _ _ _ _ _ hb
      exact ⟨part, h1, h2⟩
    · cases hc
  · simp at hi

theorem uploadFilesSent_of_ok (envs : Nat → Env) (baseURL : String)
    (headers : List (String × String)) (field : String) (files dests : List String)
    (verbose : Int) (i : Nat) (file dest : String) (f : File)
    (hf : files[i]? = some file) (hd : dests[i]? = some dest)
    (ho : (envs i).osOpen file = .ok f)
    (hv : (envs i).newRequestErr "POST" baseURL = none) :
    ∃ req ∈ uploadFilesSent envs baseURL headers field files dests verbose,
      ∃ part, req.body.map (fun m => m.parts) = some [part]
        ∧ part.fieldName = escapeQuotes field ∧ part.fileName = some (escapeQuotes dest) := by
  obtain ⟨req, hreq⟩ := uploadFile_sent_of_ok (envs i) baseURL headers field file dest verbose
    f ho hv
  have hmem : req ∈ (uploadFile (envs i) baseURL headers field file dest verbose).sent := by
    rw [hreq]
    exact List.mem_singleton.mpr rfl
  obtain ⟨f', ho', hb⟩ := uploadFile_sent_mem _ _ _ _ _ _ _ _ hmem
  refine ⟨req, ?_, usesField_of_file _ _ _ _ _ hb⟩
  unfold uploadFilesSent
  rw [List.mem_flatMap]
  refine ⟨i, List.mem_range.mpr (List.getElem?_eq_some.mp hf).1, ?_⟩
  unfold taskSent taskCall
  rw [hf, hd]
  exact hmem

theorem escapeQuotes_fields :
    escapeQuotes fieldRemote = "remote" ∧ escapeQuotes fieldOneshotURL = "oneshot_url"
      ∧ escapeQuotes fieldURL = "url" ∧ escapeQuotes fieldOneshot = "oneshot"
      ∧ escapeQuotes fieldFile = "file" := by
  decide

theorem runUpload_field (args : Args) (conf : Config) (w : World) (dests : List String)
    (headers : List (String × String)) :
    (runUpload args conf w dests headers).field =
      if args.RemoteURL ≠ "" then "remote"
      else if args.URLToShorten ≠ "" then (if args.OneShot then "oneshot_url" else "url")
      else (if args.OneShot then "oneshot" else "file") := by
  unfold runUpload
  by_cases hr : args.RemoteURL = ""
  · by_cases hu : args.URLToShorten = ""
    · simp only [hr, hu, ne_eq, not_true_eq_false, if_false]
      split <;> rfl
    · simp only [hr, hu, ne_eq, not_true_eq_false, not_false_eq_true, if_false, if_true]
      rfl
  · simp only [hr, ne_eq, not_false_eq_true, if_true]
    rfl

theorem runUpload_sent_usesField (args : Args) (conf : Config) (w : World)
    (dests : List String) (headers : List (String × String)) (req : Request)
    (h : req ∈ (runUpload args conf w dests headers).sent) :
    usesField req (runUpload args conf w dests headers).field := by
  obtain ⟨e1, e2, e3, e4, e5⟩ := escapeQuotes_fields
  rw [runUpload_field]
  unfold runUpload at h
  by_cases hr : args.RemoteURL = ""
  · by_cases hu : args.URLToShorten = ""
    · simp only [hr, hu, ne_eq, not_true_eq_false, if_false] at h ⊢
      split at h
      · simp at h
      · simp only [uploadFilesTraced] at h
        have := uploadFilesSent_mem _ _ _ _ _ _ _ _ h
        cases hO : args.OneShot
        · simpa [hO, e5] using this
        · simpa [hO, e4] using this
    · simp only [hr, hu, ne_eq, not_true_eq_false, not_false_eq_true, if_false, if_true] at h ⊢
      obtain ⟨part, h1, h2, -⟩ := usesField_of_text _ _ _ _ (uploadURL_sent_mem _ _ _ _ _ _ _ h)
      refine ⟨part, h1, ?_⟩
      rw [h2]
      cases hO : args.OneShot
      · simpa using e3
      · simpa using e2
  · simp only [hr, ne_eq, not_false_eq_true, if_true] at h ⊢
    obtain ⟨part, h1, h2, -⟩ := usesField_of_text _ _ _ _
      (uploadURL_sent_mem _ _ _ _ _ _ _ h)
    exact ⟨part, h1, h2.trans e1⟩

theorem runUpload_sent_of_url (args : Args) (conf : Config) (w : World)
    (dests : List String) (headers : List (String × String))
    (hsrc : args.RemoteURL ≠ "" ∨ args.URLToShorten ≠ "")
    (hv : w.urlEnv.newRequestErr "POST" conf.URL = none) :
    ∃ req part, (runUpload args conf w dests headers).sent = [req]
      ∧ req.body.map (fun m => m.parts) = some [part]
      ∧ part.fieldName = (runUpload args conf w dests headers).field
      ∧ part.content = (if args.RemoteURL ≠ "" then args.RemoteURL else args.URLToShorten) := by
  obtain ⟨e1, e2, e3, e4, e5⟩ := escapeQuotes_fields
  rw [runUpload_field]
  unfold runUpload
  by_cases hr : args.RemoteURL = ""
  · have hu : args.URLToShorten ≠ "" := by
      rcases hsrc with h | h
      · exact absurd hr h
      · exact h
    simp only [hr, hu, ne_eq, not_true_eq_false, not_false_eq_true, if_false, if_true]
    obtain ⟨req, hreq⟩ := uploadURL_sent_of_valid w.urlEnv conf.URL headers
      (if args.OneShot = true then fieldOneshotURL else fieldURL) args.URLToShorten
      args.Verbose hv
    have hmem : req ∈ (uploadURL w.urlEnv conf.URL headers
        (if args.OneShot = true then fieldOneshotURL else fieldURL) args.URLToShorten
        args.Verbose).sent := by
      rw [hreq]
      exact List.mem_singleton.mpr rfl
    obtain ⟨part, h1, h2, h3⟩ := usesField_of_text _ _ _ _ (uploadURL_sent_mem _ _ _ _ _ _ _ hmem)
    refine ⟨req, part, hreq, h1, ?_, h3⟩
    rw [h2]
    cases hO : args.OneShot
    · simpa using e3
    · simpa using e2
  · simp only [hr, ne_eq, not_false_eq_true, if_true]
    obtain ⟨req, hreq⟩ := uploadURL_sent_of_valid w.urlEnv conf.URL headers fieldRemote
      args.RemoteURL args.Verbose hv
    have hmem : req ∈ (uploadURL w.urlEnv conf.URL headers fieldRemote args.RemoteURL
        args.Verbose).sent := by
      rw [hreq]
      exact List.mem_singleton.mpr rfl
    obtain ⟨part, h1, h2, h3⟩ := usesField_of_text _ _ _ _ (uploadURL_sent_mem _ _ _ _ _ _ _ hmem)
    exact ⟨req, part, hreq, h1, h2.trans e1, h3⟩

theorem runUpload_sent_of_file (args : Args) (conf : Config) (w : World)
    (dests : List String) (headers : List (String × String))
    (hr : args.RemoteURL = "") (hu : args.URLToShorten = "") (hs : args.StripExif = false)
    (i : Nat) (file dest : String) (f : File)
    (hf : args.Files[i]? = some file) (hd : dests[i]? = some dest)
    (ho : (w.fileEnvs i).osOpen file = .ok f)
    (hv : (w.fileEnvs i).newRequestErr "POST" conf.URL = none) :
    ∃ req ∈ (runUpload args conf w dests headers).sent,
      ∃ part, req.body.map (fun m => m.parts) = some [part]
        ∧ part.fieldName = (runUpload args conf w dests headers).field
        ∧ part.fileName = some (escapeQuotes dest) := by
  obtain ⟨e1, e2, e3, e4, e5⟩ := escapeQuotes_fields
  rw [runUpload_field]
  unfold runUpload
  simp only [hr, hu, hs, ne_eq, not_true_eq_false, if_false, Bool.false_eq_true,
    uploadFilesTraced]
  obtain ⟨req, hmem, part, h1, h2, h3⟩ := uploadFilesSent_of_ok w.fileEnvs conf.URL headers
    (if args.OneShot = true then fieldOneshot else fieldFile) args.Files dests args.Verbose
    i file dest f hf hd ho hv
  refine ⟨req, hmem, part, h1, ?_, h3⟩
  rw [h2]
  cases hO : args.OneShot
  · simpa using e5
  · simpa using e4

/-! ## Claims on the arguments -/

/-- C8: for arguments accepted by `parseArgs`, exactly one of the three upload sources
is given, and the field name `run` uses is "remote" for a remote URL, "oneshot_url" or
"url" for a URL to shorten and "oneshot" or "file" for files, the one-shot name being
used exactly when one-shot mode is on, whatever the configuration and the outside world
are. Every upload request handed to `client.Do` carries one multipart part under that
field name; a URL upload whose request can be built sends exactly one request, with the
URL as the content of the part, and every file that opens and whose request can be built
has its request sent (Exif stripping off), with its destination name as the file name of
the part. -/
theorem run_field_by_mode (raw args : Args) (conf : Config) (w : World)
    (hp : parseArgs raw = .ok args) :
    ∃ r, run args conf w = some r
      ∧ (args.RemoteURL ≠ "" → r.field = "remote")
      ∧ (args.URLToShorten ≠ "" → r.field = if args.OneShot then "oneshot_url" else "url")
      ∧ (args.Files ≠ [] → r.field = if args.OneShot then "oneshot" else "file")
      ∧ ((args.Files ≠ [] ∧ args.RemoteURL = "" ∧ args.URLToShorten = "")
        ∨ (args.Files = [] ∧ args.RemoteURL ≠ "" ∧ args.URLToShorten = "")
        ∨ (args.Files = [] ∧ args.RemoteURL = "" ∧ args.URLToShorten ≠ ""))
      ∧ ((r.field = "oneshot" ∨ r.field = "oneshot_url") ↔ args.OneShot = true)
      ∧ (∀ req ∈ r.sent, ∃ part,
          req.body.map (fun m => m.parts) = some [part] ∧ part.fieldName = r.field)
      ∧ (args.Files = [] → w.urlEnv.newRequestErr "POST" conf.URL = none →
          ∃ req part, r.sent = [req] ∧ req.body.map (fun m => m.parts) = some [part]
            ∧ part.fieldName = r.field
            ∧ part.content = (if args.RemoteURL ≠ "" then args.RemoteURL
                else args.URLToShorten))
      ∧ (args.Files ≠ [] → args.StripExif = false →
          ∀ i file f, args.Files[i]? = some file → (w.fileEnvs i).osOpen file = .ok f →
            (w.fileEnvs i).newRequestErr "POST" conf.URL = none →
            ∃ req ∈ r.sent, ∃ part dest, req.body.map (fun m => m.parts) = some [part]
              ∧ part.fieldName = r.field ∧ r.dests[i]? = some dest
              ∧ part.fileName = some (escapeQuotes dest)) := by
  obtain ⟨st, hst⟩ := uploadStep_some raw args conf w hp
  obtain ⟨r, hr, hfield, hdests, hsent⟩ := run_of_some args conf w st hst
  obtain ⟨-, hex, hlen, hone⟩ := parseArgs_ok raw args hp
  have hfield2 : r.field = (runUpload args conf w (runDests args (formatInt w.now))
      (runHeaders args conf)).field := hfield
  rw [uploadStep_field] at hfield
  refine ⟨r, hr, ?_, ?_, ?_, hex, ?_, ?_, ?_, ?_⟩
  · intro h
    rw [hfield]
    simp [h, fieldRemote]
  · intro h
    rcases hex with ⟨_, _, h3⟩ | ⟨_, _, h3⟩ | ⟨_, h2, _⟩
    · exact absurd h3 h
    · exact absurd h3 h
    · rw [hfield]
      simp [h, h2, fieldOneshotURL, fieldURL]
  · intro h
    rcases hex with ⟨_, h2, h3⟩ | ⟨h1, _, _⟩ | ⟨h1, _, _⟩
    · rw [hfield]
      simp [h2, h3, fieldOneshot, fieldFile]
    · exact absurd h1 h
    · exact absurd h1 h
  · rw [hfield]
    cases hO : args.OneShot
    · by_cases h2 : args.RemoteURL = "" <;> by_cases h3 : args.URLToShorten = ""
        <;> simp [h2, h3, fieldRemote, fieldOneshotURL, fieldURL, fieldOneshot, fieldFile]
    · have h2 : args.RemoteURL = "" := hone hO
      by_cases h3 : args.URLToShorten = ""
        <;> simp [h2, h3, fieldOneshotURL, fieldOneshot]
  · intro req hreq
    rw [hsent] at hreq
    rw [hfield2]
    exact runUpload_sent_usesField _ _ _ _ _ _ hreq
  · intro hnf hv
    have hsrc : args.RemoteURL ≠ "" ∨ args.URLToShorten ≠ "" := by
      rcases hex with ⟨h1, _, _⟩ | ⟨_, h2, _⟩ | ⟨_, _, h3⟩
      · exact absurd hnf h1
      · exact Or.inl h2
      · exact Or.inr h3
    rw [hsent, hfield2]
    exact runUpload_sent_of_url _ _ _ _ _ hsrc hv
  · intro hnf hs i file f hfile ho hv
    have h23 : args.RemoteURL = "" ∧ args.URLToShorten = "" := by
      rcases hex with ⟨_, h2, h3⟩ | ⟨h1, _, _⟩ | ⟨h1, _, _⟩
      · exact ⟨h2, h3⟩
      · exact absurd h1 hnf
      · exact absurd h1 hnf
    have hi : i < args.Files.length := (List.getElem?_eq_some.mp hfile).1
    have hdl : (runDests args (formatInt w.now)).length = args.Files.length :=
      runDests_length args (formatInt w.now) hlen
    have hd : (runDests args (formatInt w.now))[i]?
        = some ((runDests args (formatInt w.now))[i]) :=
      List.getElem?_eq_getElem (by omega)
    obtain ⟨req, hmem, part, h1, h2, h3⟩ := runUpload_sent_of_file args conf w
      (runDests args (formatInt w.now)) (runHeaders args conf) h23.1 h23.2 hs i file _ f
      hfile hd ho hv
    rw [hsent, hfield2, hdests]
    exact ⟨req, hmem, part, _, h1, h2, hd, h3⟩

/-- C10: for arguments accepted by `parseArgs` that name at least one file, the list
of destination names `run` builds is non-empty and as long as the list of files, so `dests[i]` exists
for every file index `i` and `uploadFiles` does not panic on any list of as many files. -/
theorem run_dests_length (raw args : Args) (conf : Config) (w : World)
    (hp : parseArgs raw = .ok args) (hf : args.Files ≠ []) :
    ∃ r, run args conf w = some r
      ∧ r.dests.length = args.Files.length
      ∧ r.dests ≠ []
      ∧ (∀ i, i < args.Files.length → ∃ dest, r.dests[i]? = some dest)
      ∧ (∀ (envs : Nat → Env) (order : List Nat) (baseURL : String)
          (headers : List (String × String)) (field : String) (files : List String)
          (verbose : Int), files.length = args.Files.length →
          ∃ ret, uploadFiles envs order baseURL headers field files r.dests verbose
            = some ret) := by
  obtain ⟨st, hst⟩ := uploadStep_some raw args conf w hp
  obtain ⟨r, hr, -, hdests, -⟩ := run_of_some args conf w st hst
  obtain ⟨-, -, hlen, -⟩ := parseArgs_ok raw args hp
  have hd : r.dests.length = args.Files.length := by
    rw [hdests]
    exact runDests_length args (formatInt w.now) hlen
  refine ⟨r, hr, hd, ?_, ?_, ?_⟩
  · intro hnil
    rw [hnil] at hd
    exact hf (List.length_eq_zero.mp hd.symm)
  · intro i hi
    exact ⟨r.dests[i], List.getElem?_eq_getElem (by omega)⟩
  · intro envs order baseURL headers field files verbose hfl
    exact uploadFiles_some envs order baseURL headers field files r.dests verbose (by omega)

/-! ## Concrete instances -/

/-- Instance of C1: two files, the second of which cannot be opened, the second
goroutine committing first. -/
theorem uploadFiles_all_or_aggregate_witness :
    ["a.1.txt", "missing.1.txt"].length = ["a.txt", "missing.txt"].length
    ∧ [1, 0].Perm (List.range ["a.txt", "missing.txt"].length)
    ∧ (let task := taskResult (fun _ => sampleEnv) "https://paste.example"
        [("Authorization", "secret")] "file" ["a.txt", "missing.txt"]
        ["a.1.txt", "missing.1.txt"] 0
      let failed := (List.range ["a.txt", "missing.txt"].length).filterMap
        (fun i => errOf (task i))
      (failed = [] ∧ ∃ ups,
          uploadFiles (fun _ => sampleEnv) [1, 0] "https://paste.example"
            [("Authorization", "secret")] "file" ["a.txt", "missing.txt"]
            ["a.1.txt", "missing.1.txt"] 0 = some (some ups, none)
          ∧ ups.length = ["a.txt", "missing.txt"].length)
      ∨ (failed ≠ [] ∧ ∃ errs,
          uploadFiles (fun _ => sampleEnv) [1, 0] "https://paste.example"
            [("Authorization", "secret")] "file" ["a.txt", "missing.txt"]
            ["a.1.txt", "missing.1.txt"] 0 = some (none, some (.join errs))
          ∧ errs.Perm failed)) :=
  ⟨by decide, by decide,
    uploadFiles_all_or_aggregate (fun _ => sampleEnv) [1, 0] "https://paste.example"
      [("Authorization", "secret")] "file" ["a.txt", "missing.txt"]
      ["a.1.txt", "missing.1.txt"] 0 (by decide) (by decide)⟩

theorem sample_all_succeed :
    ∀ (i : Nat) (file dest : String),
      ["a.txt", "b.txt"][i]? = some file → ["a.1.txt", "b.1.txt"][i]? = some dest →
      ∃ u, (uploadFile ((fun _ => sampleEnv) i) "https://paste.example"
        [("Authorization", "secret")] "file" file dest 0).ret = .ok u := by
  intro i file dest hf hd
  match i with
  | 0 =>
    simp only [List.getElem?_cons_zero, Option.some.injEq] at hf hd
    subst hf hd
    exact ⟨_, rfl⟩
  | 1 =>
    simp only [List.getElem?_cons_succ, List.getElem?_cons_zero, Option.some.injEq] at hf hd
    subst hf hd
    exact ⟨_, rfl⟩
  | n + 2 => simp at hf

/-- Instance of C2: two files that both upload. -/
theorem uploadFiles_index_fidelity_witness :
    ["a.1.txt", "b.1.txt"].length = ["a.txt", "b.txt"].length
    ∧ ∃ ups : List Upload, ups.length = ["a.txt", "b.txt"].length
      ∧ (∀ order : List Nat, order.Perm (List.range ["a.txt", "b.txt"].length) →
          uploadFiles (fun _ => sampleEnv) order "https://paste.example"
            [("Authorization", "secret")] "file" ["a.txt", "b.txt"] ["a.1.txt", "b.1.txt"] 0
            = some (some ups, none))
      ∧ (∀ (i : Nat) (file dest : String), ["a.txt", "b.txt"][i]? = some file →
          ["a.1.txt", "b.1.txt"][i]? = some dest →
          ∃ u, ups[i]? = some u
            ∧ (uploadFile ((fun _ => sampleEnv) i) "https://paste.example"
                [("Authorization", "secret")] "file" file dest 0).ret = .ok u
            ∧ u.Name = filepathBase file) :=
  ⟨by decide,
    uploadFiles_index_fidelity (fun _ => sampleEnv) "https://paste.example"
      [("Authorization", "secret")] "file" ["a.txt", "b.txt"] ["a.1.txt", "b.1.txt"] 0
      (by decide) sample_all_succeed⟩

/-- Instance of C3: two files upload with status 200, the probe of the second URL times
out, and `run` reports failure. -/
theorem run_outcome_witness :
    (uploadStep (sampleArgs ["a.txt", "gone.txt"]) sampleConf (sampleWorld [1, 0])).2
      = some (.done (some
          [{ Name := "a.txt", Status := 200, URL := "https://paste.example/a.1730000000.txt" },
           { Name := "gone.txt", Status := 200,
             URL := "https://paste.example/gone.1730000000.txt" }]) none)
    ∧ ∃ r, run (sampleArgs ["a.txt", "gone.txt"]) sampleConf (sampleWorld [1, 0]) = some r
      ∧ r.err = some (.text "one or more uploads failed") := by
  refine ⟨rfl, ?_⟩
  obtain ⟨r, hr, h1, -, -⟩ := run_outcome (sampleArgs ["a.txt", "gone.txt"]) sampleConf
    (sampleWorld [1, 0]) _ rfl
  exact ⟨r, hr, h1 (Or.inr ⟨rfl, by decide⟩)⟩

/-- Instance of C5: one file in one-shot mode. -/
theorem run_oneshot_no_verification_witness :
    parseArgs { sampleArgs ["a.txt"] with OneShot := true }
      = .ok { sampleArgs ["a.txt"] with OneShot := true }
    ∧ ∃ r, run { sampleArgs ["a.txt"] with OneShot := true } sampleConf (sampleWorld [0]) = some r
      ∧ r.verifyCalls = 0 ∧ r.probes = [] := by
  refine ⟨rfl, ?_⟩
  obtain ⟨r, hr, hv, hpr, -, -⟩ := run_oneshot_no_verification
    { sampleArgs ["a.txt"] with OneShot := true } { sampleArgs ["a.txt"] with OneShot := true }
    sampleConf (sampleWorld [0]) rfl rfl
  exact ⟨r, hr, hv, hpr⟩

/-- C6, counterexample: of two files the first obtains a URL and the second cannot be
opened; `run` returns the aggregate error and prints nothing. -/
theorem run_drops_obtained_url :
    (uploadFile ((sampleWorld [1, 0]).fileEnvs 0) sampleConf.URL
        (runHeaders (sampleArgs ["a.txt", "missing.txt"]) sampleConf) "file" "a.txt"
        "a.1730000000.txt" 0).ret.toOption
      = some { Name := "a.txt", Status := 200,
               URL := "https://paste.example/a.1730000000.txt" }
    ∧ (run (sampleArgs ["a.txt", "missing.txt"]) sampleConf (sampleWorld [1, 0])).map (fun r => r.dests)
      = some ["a.1730000000.txt", "missing.1730000000.txt"]
    ∧ (run (sampleArgs ["a.txt", "missing.txt"]) sampleConf (sampleWorld [1, 0])).map (fun r => r.stdout)
      = some [] := by
  decide

/-- Instance of the amended C6: two files upload, the probe of the second URL times out,
`run` reports failure and both URLs are printed. -/
theorem run_prints_urls_witness :
    (uploadStep (sampleArgs ["a.txt", "gone.txt"]) sampleConf (sampleWorld [1, 0])).2
      = some (.done (some
          [{ Name := "a.txt", Status := 200, URL := "https://paste.example/a.1730000000.txt" },
           { Name := "gone.txt", Status := 200,
             URL := "https://paste.example/gone.1730000000.txt" }]) none)
    ∧ ∃ r, run (sampleArgs ["a.txt", "gone.txt"]) sampleConf (sampleWorld [1, 0]) = some r
      ∧ r.stdout = ["https://paste.example/a.1730000000.txt",
                    "https://paste.example/gone.1730000000.txt"] := by
  refine ⟨rfl, ?_⟩
  obtain ⟨r, hr, hs⟩ := run_prints_urls (sampleArgs ["a.txt", "gone.txt"]) sampleConf
    (sampleWorld [1, 0]) _ rfl
  exact ⟨r, hr, hs.trans (by decide)⟩

/-- C7, the code at a failing input: reading `big.iso` fails after four of its ten bytes
and `photos` is a directory whose read fails at once; in both cases `uploadFile` sends
the request, with a truncated or empty file part, and returns the upload. -/
theorem uploadFile_sends_truncated_part :
    (sampleEnv.osOpen "big.iso").toOption.map (fun f => (f.content, (ioCopy f).2.isSome))
      = some ("0123456789", true)
    ∧ (uploadFile sampleEnv "https://paste.example" [("Authorization", "secret")] "file"
        "big.iso" "big.1.iso" 0).sent.map (fun req => req.body.map (fun m => m.parts))
      = [some [{ fieldName := "file", fileName := some "big.1.iso", content := "0123" }]]
    ∧ (uploadFile sampleEnv "https://paste.example" [("Authorization", "secret")] "file"
        "big.iso" "big.1.iso" 0).ret.toOption
      = some { Name := "big.iso", Status := 200, URL := "https://paste.example/big.1.iso" }
    ∧ (sampleEnv.osOpen "photos").toOption.map (fun f => (ioCopy f).2.isSome) = some true
    ∧ (uploadFile sampleEnv "https://paste.example" [("Authorization", "secret")] "file"
        "photos" "photos.1" 0).sent.map (fun req => req.body.map (fun m => m.parts))
      = [some [{ fieldName := "file", fileName := some "photos.1", content := "" }]]
    ∧ (uploadFile sampleEnv "https://paste.example" [("Authorization", "secret")] "file"
        "photos" "photos.1" 0).ret.toOption
      = some { Name := "photos", Status := 200, URL := "https://paste.example/photos.1" } := by
  decide

/-- Instances of C8, one for each field name: a remote URL, a URL to shorten with and
without one-shot mode, a file with and without one-shot mode. In each the request sent
carries one part under the field name of the mode. -/
theorem run_field_by_mode_witness :
    (parseArgs sampleRemote = .ok sampleRemote
      ∧ ∃ r, run sampleRemote sampleConf (sampleWorld []) = some r
          ∧ ∃ req part, r.sent = [req] ∧ req.body.map (fun m => m.parts) = some [part]
            ∧ part.fieldName = "remote")
    ∧ (∃ r, run (sampleShorten true) sampleConf (sampleWorld []) = some r
          ∧ ∃ req part, r.sent = [req] ∧ req.body.map (fun m => m.parts) = some [part]
            ∧ part.fieldName = "oneshot_url")
    ∧ (∃ r, run (sampleShorten false) sampleConf (sampleWorld []) = some r
          ∧ ∃ req part, r.sent = [req] ∧ req.body.map (fun m => m.parts) = some [part]
            ∧ part.fieldName = "url")
    ∧ (∃ r, run (sampleOnce ["a.txt"]) sampleConf (sampleWorld [0]) = some r
          ∧ ∃ req ∈ r.sent, ∃ part, req.body.map (fun m => m.parts) = some [part]
            ∧ part.fieldName = "oneshot")
    ∧ (∃ r, run (sampleArgs ["a.txt"]) sampleConf (sampleWorld [0]) = some r
          ∧ ∃ req ∈ r.sent, ∃ part, req.body.map (fun m => m.parts) = some [part]
            ∧ part.fieldName = "file") := by
  refine ⟨⟨rfl, ?_⟩, ?_, ?_, ?_, ?_⟩
  · obtain ⟨r, hr, h1, -, -, -, -, -, h7, -⟩ := run_field_by_mode sampleRemote sampleRemote
      sampleConf (sampleWorld []) rfl
    obtain ⟨req, part, hs, hb, hn, -⟩ := h7 rfl rfl
    exact ⟨r, hr, req, part, hs, hb, hn.trans (h1 (by decide))⟩
  · obtain ⟨r, hr, -, h2, -, -, -, -, h7, -⟩ := run_field_by_mode (sampleShorten true)
      (sampleShorten true) sampleConf (sampleWorld []) rfl
    obtain ⟨req, part, hs, hb, hn, -⟩ := h7 rfl rfl
    exact ⟨r, hr, req, part, hs, hb, hn.trans (h2 (by decide))⟩
  · obtain ⟨r, hr, -, h2, -, -, -, -, h7, -⟩ := run_field_by_mode (sampleShorten false)
      (sampleShorten false) sampleConf (sampleWorld []) rfl
    obtain ⟨req, part, hs, hb, hn, -⟩ := h7 rfl rfl
    exact ⟨r, hr, req, part, hs, hb, hn.trans (h2 (by decide))⟩
  · obtain ⟨r, hr, -, -, h3, -, -, -, -, h8⟩ := run_field_by_mode (sampleOnce ["a.txt"])
      (sampleOnce ["a.txt"]) sampleConf (sampleWorld [0]) rfl
    obtain ⟨req, hm, part, dest, hb, hn, -, -⟩ := h8 (by decide) rfl 0 "a.txt"
      { content := "hello", fault := none } rfl rfl rfl
    exact ⟨r, hr, req, hm, part, hb, hn.trans (h3 (by decide))⟩
  · obtain ⟨r, hr, -, -, h3, -, -, -, -, h8⟩ := run_field_by_mode (sampleArgs ["a.txt"])
      (sampleArgs ["a.txt"]) sampleConf (sampleWorld [0]) rfl
    obtain ⟨req, hm, part, dest, hb, hn, -, -⟩ := h8 (by decide) rfl 0 "a.txt"
      { content := "hello", fault := none } rfl rfl rfl
    exact ⟨r, hr, req, hm, part, hb, hn.trans (h3 (by decide))⟩

/-- C9, the code at a failing input: the space in the extension of
`my photo.final cut.jpg` stays in the destination name, with an empty `-x` suffix. -/
theorem destName_keeps_space_in_extension :
    parseArgs (sampleArgs ["my photo.final cut.jpg"])
        = .ok (sampleArgs ["my photo.final cut.jpg"])
    ∧ (sampleArgs ["my photo.final cut.jpg"]).Suffix = ""
    ∧ (run (sampleArgs ["my photo.final cut.jpg"]) sampleConf (sampleWorld [0])).map
        (fun r => r.dests) = some ["my-photo.1730000000.final cut.jpg"]
    ∧ ' ' ∈ "my-photo.1730000000.final cut.jpg".data :=
  ⟨rfl, rfl, by decide, by decide⟩

/-- Instance of C10: two files, no option. -/
theorem run_dests_length_witness :
    parseArgs (sampleArgs ["a.txt", "b.txt"]) = .ok (sampleArgs ["a.txt", "b.txt"])
    ∧ (sampleArgs ["a.txt", "b.txt"]).Files ≠ []
    ∧ ∃ r, run (sampleArgs ["a.txt", "b.txt"]) sampleConf (sampleWorld [1, 0]) = some r
      ∧ r.dests.length = 2 := by
  refine ⟨rfl, by decide, ?_⟩
  obtain ⟨r, hr, hd, -⟩ := run_dests_length (sampleArgs ["a.txt", "b.txt"])
    (sampleArgs ["a.txt", "b.txt"]) sampleConf (sampleWorld [1, 0]) rfl (by decide)
  exact ⟨r, hr, hd⟩

end Ferri
